import Mathlib

/-!
Shallow embedding of `src/sync_products.py` (Pankens/shopify-catalog-sync).

Python `float` arithmetic is modelled over `ℚ`; JSON record fields are
modelled as `Option String` (`none` = key absent from the record, matching
`dict.get`); a Python exception aborting a computation is modelled by
`Option`/abort flags rather than by exceptional control flow; a Python
`set` is modelled by a duplicate-free `List` in insertion order, and a
Python `dict` by an association `List` in insertion order.
-/

namespace SyncProducts

/-- Fixed tax percentage, from the source: `IVA = 21.0`. -/
def IVA : ℚ := 21

/-- Locale normalization applied to the raw numeric strings, from
`p.get(...).replace(".", "").replace(",", ".")`: first every `'.'` is
removed, then every `','` is replaced by `'.'`. -/
def normLocale (s : String) : String :=
  ((s.data.filter (fun c => c ≠ '.')).map (fun c => if c = ',' then '.' else c)).asString

/-- Numeric value of one decimal digit character. -/
def digitVal (c : Char) : ℕ := c.toNat - Char.toNat '0'

@[simp] lemma digitVal_0 : digitVal '0' = 0 := by decide

@[simp] lemma digitVal_1 : digitVal '1' = 1 := by decide

@[simp] lemma digitVal_2 : digitVal '2' = 2 := by decide

@[simp] lemma digitVal_3 : digitVal '3' = 3 := by decide

@[simp] lemma digitVal_4 : digitVal '4' = 4 := by decide

@[simp] lemma digitVal_5 : digitVal '5' = 5 := by decide

@[simp] lemma digitVal_6 : digitVal '6' = 6 := by decide

@[simp] lemma digitVal_7 : digitVal '7' = 7 := by decide

@[simp] lemma digitVal_8 : digitVal '8' = 8 := by decide

@[simp] lemma digitVal_9 : digitVal '9' = 9 := by decide

/-- Numeric value of a digit string (most significant digit first). -/
def digitsVal (ds : List Char) : ℕ :=
  ds.foldl (fun a c => 10 * a + digitVal c) 0

/-- Split a character list at the first `'.'`: the part before it, and
`some` of everything after it (`none` when there is no `'.'`). -/
def splitDot : List Char → (List Char × Option (List Char))
  | [] => ([], none)
  | c :: cs =>
      if c = '.' then ([], some cs)
      else ((c :: (splitDot cs).1), (splitDot cs).2)

/-- Model of Python `float(s)` on the decimal fragment of its grammar: an
optional sign, then an integer part and an optional fractional part
separated by a single `'.'`, with at least one digit overall.  Returns
`none` when the string does not parse, which models the `ValueError`
Python raises there (e.g. on `float("")`). -/
def parseFloat (s : String) : Option ℚ :=
  let cs := s.data
  let rest := if cs.head? = some '-' ∨ cs.head? = some '+' then cs.tail else cs
  let sign : ℚ := if cs.head? = some '-' then -1 else 1
  let ip := (splitDot rest).1
  match (splitDot rest).2 with
  | none =>
      if ip ≠ [] ∧ ip.all Char.isDigit then some (sign * digitsVal ip) else none
  | some fp =>
      if (ip ≠ [] ∨ fp ≠ []) ∧ ip.all Char.isDigit ∧ fp.all Char.isDigit then
        some (sign * (digitsVal ip + (digitsVal fp : ℚ) / 10 ^ fp.length))
      else none

/-- Python `str.strip()`: removes leading and trailing whitespace
(modelled on ASCII whitespace via `Char.isWhitespace`). -/
def pyStrip (s : String) : String :=
  ((s.data.dropWhile Char.isWhitespace).reverse.dropWhile Char.isWhitespace).reverse.asString

/-- One raw record of the external feed.  Each field is `none` when the
JSON key is absent (so `p.get(k, d)` becomes `(·.getD d)`); present values
are modelled as the strings the script reads from them. -/
structure ExternalProduct where
  EAN : Option String := none
  REF : Option String := none
  NAME : Option String := none
  SUBFAMILIA : Option String := none
  DESCRIPTION : Option String := none
  URL_IMG : Option String := none
  STOCK : Option String := none
  PVD : Option String := none
  CANON : Option String := none
  MARGIN : Option String := none
deriving DecidableEq, Repr

/-- The truncation step of the price computation, from
`price = math.floor(con_iva * 100) / 100.0`. -/
def truncate2 (conIva : ℚ) : ℚ := (⌊conIva * 100⌋ : ℚ) / 100

/-- The price computation of `build_jsonl_lines` (source lines 107-113):
each of PVD / CANON / MARGIN defaults to `"0"` when the key is absent, is
locale-normalized and parsed; `none` models the `ValueError` Python raises
when a present field does not parse.  Then `base = pvd + canon`,
`sin_iva = base * (1 + margin/100)`, `con_iva = sin_iva * (1 + IVA/100)`,
truncated to 2 decimals. -/
def recordPrice (p : ExternalProduct) : Option ℚ := do
  let pvd ← parseFloat (normLocale (p.PVD.getD "0"))
  let canon ← parseFloat (normLocale (p.CANON.getD "0"))
  let marginPct ← parseFloat (normLocale (p.MARGIN.getD "0"))
  let base := pvd + canon
  let sinIva := base * (1 + marginPct / 100)
  let conIva := sinIva * (1 + IVA / 100)
  pure (truncate2 conIva)

/-- Python `int()` applied to a float value: truncation toward zero. -/
def pyInt (q : ℚ) : ℤ := Int.tdiv q.num q.den

/-- The stable key (Shopify handle) of one feed record, from source lines
90-91: `ean = str(p.get("EAN", "")).strip()` and `handle = f"ean-{ean}"`.
Coercion of the JSON value to a string (`str`) is the identity on our
string-modelled fields; `.strip()` is modelled by `pyStrip`. -/
def handleOf (p : ExternalProduct) : String := "ean-" ++ pyStrip (p.EAN.getD "")

/-- One line of the JSONL bulk file: the `productSet` input object built
by `build_jsonl_lines` (source lines 116-139), with its fields modelled
by typed components.  `price` keeps the exact rational the format string
`f"{price:.2f}"` prints; `files` is `none` when `URL_IMG` is absent or
falsy (Python `if img:` is false on the empty string). -/
structure Node where
  id : Option String
  handle : String
  title : String
  descriptionHtml : String
  status : String
  productType : String
  tags : List String
  sku : String
  barcode : String
  price : ℚ
  stock : ℤ
  files : Option (String × String)
deriving DecidableEq, Repr

/-- Builds the mutation object for one feed record (source lines 98-139).
`none` models the exceptions of `int(float(p.get("STOCK", "0")))` and of
the price computation; `id` is present exactly when the handle is a key
of `existing_map`. -/
def mkNode (existing : List (String × String)) (p : ExternalProduct) : Option Node := do
  let ean := pyStrip (p.EAN.getD "")
  let handle := "ean-" ++ ean
  let sku := pyStrip (p.REF.getD "")
  let title := pyStrip (p.NAME.getD "")
  let subfam := pyStrip (p.SUBFAMILIA.getD "")
  let desc := pyStrip (p.DESCRIPTION.getD "")
  let stockF ← parseFloat (p.STOCK.getD "0")
  let price ← recordPrice p
  pure { id := existing.lookup handle
         handle := handle
         title := title
         descriptionHtml := desc
         status := "ACTIVE"
         productType := subfam
         tags := ["ImportadoAPI"]
         sku := sku
         barcode := ean
         price := price
         stock := pyInt stockF
         files := match p.URL_IMG with
                  | some img => if img ≠ "" then some (title, img) else none
                  | none => none }

/-- The loop of `build_jsonl_lines` (source lines 89-144): `seen` is the
set of handles already emitted; a record whose handle is in `seen` is
skipped (`continue`), otherwise its node is appended to `lines` and its
handle recorded.  In the source `seen` and `handles` always hold the same
elements; we return the handles as one duplicate-free list in insertion
order.  `none` models an exception raised while building some node. -/
def build_go (existing : List (String × String)) :
    List ExternalProduct → List String → Option (List Node × List String)
  | [], _seen => some ([], [])
  | p :: rest, seen =>
      let handle := handleOf p
      if handle ∈ seen then build_go existing rest seen
      else do
        let node ← mkNode existing p
        let (lines, handles) ← build_go existing rest (handle :: seen)
        pure (node :: lines, handle :: handles)

/-- `build_jsonl_lines(productos, existing_map)` (source lines 79-144):
returns the JSONL batch together with the set of new handles. -/
def build_jsonl_lines (productos : List ExternalProduct)
    (existing : List (String × String)) : Option (List Node × List String) :=
  build_go existing productos []

/-- The records of the feed that survive deduplication: a record is kept
exactly when its stable key did not occur earlier in the feed (and not in
`seen`).  This is the specification-side characterization of "first
occurrence wins" that `build_go` is proved to implement. -/
def freshFirsts (seen : List String) : List ExternalProduct → List ExternalProduct
  | [] => []
  | p :: rest =>
      if handleOf p ∈ seen then freshFirsts seen rest
      else p :: freshFirsts (handleOf p :: seen) rest

/-- Sequentially builds the nodes of a list of records, failing as soon
as one record fails (the effect-free core of the batch construction). -/
def nodesOf (existing : List (String × String)) :
    List ExternalProduct → Option (List Node)
  | [] => some []
  | p :: ps => do
      let n ← mkNode existing p
      let ns ← nodesOf existing ps
      pure (n :: ns)

lemma freshFirsts_handle_not_seen (seen : List String) (ps : List ExternalProduct) :
    ∀ p ∈ freshFirsts seen ps, handleOf p ∉ seen := by
  induction ps generalizing seen with
  | nil => simp [freshFirsts]
  | cons q rest ih =>
      intro p hp
      by_cases hq : handleOf q ∈ seen
      · exact ih seen p (by simpa [freshFirsts, hq] using hp)
      · rw [freshFirsts, if_neg hq] at hp
        rcases List.mem_cons.mp hp with h | h
        · exact h ▸ hq
        · have := ih (handleOf q :: seen) p h
          exact fun hmem => this (List.mem_cons_of_mem _ hmem)

lemma freshFirsts_handles_nodup (seen : List String) (ps : List ExternalProduct) :
    ((freshFirsts seen ps).map handleOf).Nodup := by
  induction ps generalizing seen with
  | nil => simp [freshFirsts]
  | cons q rest ih =>
      by_cases hq : handleOf q ∈ seen
      · simpa [freshFirsts, hq] using ih seen
      · rw [freshFirsts, if_neg hq]
        refine List.nodup_cons.mpr ⟨?_, ih (handleOf q :: seen)⟩
        intro hmem
        rcases List.mem_map.mp hmem with ⟨p, hp, hph⟩
        exact freshFirsts_handle_not_seen _ _ p hp (hph ▸ List.mem_cons_self _ _)

lemma freshFirsts_handles_toFinset (seen : List String) (ps : List ExternalProduct) :
    ((freshFirsts seen ps).map handleOf).toFinset =
      (ps.map handleOf).toFinset \ seen.toFinset := by
  induction ps generalizing seen with
  | nil => simp [freshFirsts]
  | cons q rest ih =>
      by_cases hq : handleOf q ∈ seen
      · rw [freshFirsts, if_pos hq, ih seen]
        ext x
        simp only [List.map_cons, List.toFinset_cons, Finset.mem_sdiff,
          Finset.mem_insert, List.mem_toFinset]
        constructor
        · rintro ⟨hx, hxs⟩; exact ⟨Or.inr hx, hxs⟩
        · rintro ⟨hx | hx, hxs⟩
          · exact absurd (hx ▸ hq) hxs
          · exact ⟨hx, hxs⟩
      · rw [freshFirsts, if_neg hq]
        ext x
        simp only [List.map_cons, List.toFinset_cons, Finset.mem_insert,
          Finset.mem_sdiff, List.mem_toFinset, ih (handleOf q :: seen),
          List.toFinset_cons, List.mem_cons]
        constructor
        · rintro (hx | ⟨hx, hxs⟩)
          · exact ⟨Or.inl hx, hx ▸ hq⟩
          · exact ⟨Or.inr hx, fun hs => hxs (Or.inr hs)⟩
        · rintro ⟨hx | hx, hxs⟩
          · exact Or.inl hx
          · by_cases hxq : x = handleOf q
            · exact Or.inl hxq
            · exact Or.inr ⟨hx, fun hs => (hs.elim hxq hxs)⟩

/-- `build_go` computes exactly the nodes of the records surviving
first-occurrence deduplication, paired with their handles. -/
lemma build_go_eq (existing : List (String × String)) (ps : List ExternalProduct)
    (seen : List String) :
    build_go existing ps seen =
      (nodesOf existing (freshFirsts seen ps)).map
        (fun l => (l, (freshFirsts seen ps).map handleOf)) := by
  induction ps generalizing seen with
  | nil => simp [build_go, freshFirsts, nodesOf]
  | cons p rest ih =>
      by_cases hp : handleOf p ∈ seen
      · rw [build_go, if_pos hp, freshFirsts, if_pos hp, ih]
      · rw [build_go, if_neg hp, freshFirsts, if_neg hp]
        cases hn : mkNode existing p with
        | none => simp [nodesOf, hn, bind, Option.bind]
        | some n =>
            cases hm : nodesOf existing (freshFirsts (handleOf p :: seen) rest) with
            | none =>
                simp [nodesOf, hn, hm, bind, Option.bind, ih, hm]
            | some ls =>
                simp [nodesOf, hn, hm, bind, Option.bind, ih, hm]

lemma mkNode_handle (existing : List (String × String)) (p : ExternalProduct)
    (n : Node) (h : mkNode existing p = some n) : n.handle = handleOf p := by
  rw [mkNode] at h
  cases hs : parseFloat (p.STOCK.getD "0") with
  | none => rw [hs] at h; exact absurd h (by simp [bind, Option.bind])
  | some q =>
      cases hpr : recordPrice p with
      | none => rw [hs, hpr] at h; exact absurd h (by simp [bind, Option.bind])
      | some pr =>
          rw [hs, hpr] at h
          simp only [bind, Option.bind, pure, Option.some.injEq] at h
          rw [← h, handleOf]

lemma mkNode_id (existing : List (String × String)) (p : ExternalProduct)
    (n : Node) (h : mkNode existing p = some n) :
    n.id = existing.lookup (handleOf p) := by
  rw [mkNode] at h
  cases hs : parseFloat (p.STOCK.getD "0") with
  | none => rw [hs] at h; exact absurd h (by simp [bind, Option.bind])
  | some q =>
      cases hpr : recordPrice p with
      | none => rw [hs, hpr] at h; exact absurd h (by simp [bind, Option.bind])
      | some pr =>
          rw [hs, hpr] at h
          simp only [bind, Option.bind, pure, Option.some.injEq] at h
          rw [← h, handleOf]

lemma nodesOf_handles (existing : List (String × String)) :
    ∀ (ps : List ExternalProduct) (lines : List Node),
      nodesOf existing ps = some lines →
      lines.map Node.handle = ps.map handleOf
  | [], lines, h => by
      simp only [nodesOf, Option.some.injEq] at h
      simp [← h]
  | p :: ps, lines, h => by
      rw [nodesOf] at h
      cases hn : mkNode existing p with
      | none => rw [hn] at h; exact absurd h (by simp [bind, Option.bind])
      | some n =>
          cases hm : nodesOf existing ps with
          | none => rw [hn, hm] at h; exact absurd h (by simp [bind, Option.bind])
          | some ls =>
              rw [hn, hm] at h
              simp only [bind, Option.bind, pure, Option.some.injEq] at h
              rw [← h]
              simp [mkNode_handle existing p n hn, nodesOf_handles existing ps ls hm]

/-- The pre-batch snapshot entries selected for deletion by
`delete_obsolete` (source line 253): those whose handle is not among the
new handles.  The source keeps the product ids; `obsoleteKeys` below
projects the same selection to the keys. -/
def obsolete (existing : List (String × String)) (newHandles : List String) :
    List String :=
  (existing.filter (fun kv => kv.1 ∉ newHandles)).map Prod.snd

/-- The stable keys of the pre-batch snapshot entries selected for
deletion: same filter as `obsolete`, projected to the keys. -/
def obsoleteKeys (existing : List (String × String)) (newHandles : List String) :
    List String :=
  (existing.filter (fun kv => kv.1 ∉ newHandles)).map Prod.fst

/-- A bulk-operation status is terminal when the polling loop of
`wait_for_bulk` (source line 220) breaks on it. -/
def isTerminal (s : String) : Bool :=
  s = "COMPLETED" ∨ s = "FAILED" ∨ s = "CANCELED"

/-- `wait_for_bulk` (source lines 207-224) over the sequence of statuses
the successive polls return: the loop breaks at the first terminal
status; afterwards a non-`"COMPLETED"` status raises `RuntimeError`
(modelled by `Except.error`).  `none` models the loop polling forever
because no terminal status ever arrives. -/
def wait_for_bulk : List String → Option (Except String Unit)
  | [] => none
  | s :: rest =>
      if isTerminal s then
        some (if s ≠ "COMPLETED" then Except.error ("Bulk ended with status " ++ s)
              else Except.ok ())
      else wait_for_bulk rest

/-- Outcome of one per-record GraphQL call: `transportErr` models a
non-success HTTP response (so `resp.raise_for_status()` raises and the
exception propagates out of the loop), `ok errs` a successful response
carrying the `userErrors` list of the mutation. -/
inductive CallResult
  | transportErr
  | ok (userErrors : List String)
deriving DecidableEq, Repr

/-- The per-record loop shared by `publish_to_online` (source lines
234-245) and `delete_obsolete` (source lines 266-277): records are
processed in order; `userErrors` are printed and the loop continues;
a transport error aborts after the failing call.  Returns the list of
records for which a call was attempted and whether the run aborted. -/
def attemptAll (f : String → CallResult) : List String → List String × Bool
  | [] => ([], false)
  | pid :: rest =>
      match f pid with
      | .transportErr => ([pid], true)
      | .ok _errs =>
          let r := attemptAll f rest
          (pid :: r.1, r.2)

/-- `publish_to_online(ids)` (source lines 227-245): one
`publishablePublish` call per product id, in order. -/
def publish_to_online (f : String → CallResult) (ids : List String) :
    List String × Bool :=
  attemptAll f ids

/-- `delete_obsolete(existing_map, new_handles)` (source lines 248-277):
selects the obsolete product ids, then one `productDelete` call per id,
in order. -/
def delete_obsolete (f : String → CallResult) (existing : List (String × String))
    (newHandles : List String) : List String × Bool :=
  attemptAll f (obsolete existing newHandles)

/-- One observable side-effecting step of a run of `main`. -/
inductive Effect
  | fetchExternal
  | snapshot
  | stagedUpload
  | uploadFile
  | runBulk
  | pollBulk
  | publish (pid : String)
  | deleteProduct (pid : String)
deriving DecidableEq, Repr

/-- The environment one run of `main` interacts with: the fetched feed,
the snapshots the platform returns before and after the bulk job, the
success of the three batch-submission calls, the statuses the bulk polls
return, and the per-record outcomes of the publish and delete calls. -/
structure World where
  externos : List ExternalProduct
  preMap : List (String × String)
  stagedOk : Bool
  uploadOk : Bool
  bulkSubmitOk : Bool
  polls : List String
  postMap : List (String × String)
  publishResp : String → CallResult
  deleteResp : String → CallResult

/-- The sequence of side-effecting steps one run of `main` (source lines
280-313) performs against world `w`: fetch; unless `dry_run`, pre-batch
snapshot, JSONL build (an exception aborts), staged upload, file upload,
bulk submission (each abort on failure), the polling wait (a
non-completed terminal status raises), then the post-batch snapshot, one
publish call per record of the post-batch snapshot, and one delete call
per obsolete record of the pre-batch snapshot.  A transport error in the
publish loop propagates, so the delete phase is skipped. -/
def mainTrace (w : World) (dryRun : Bool) : List Effect :=
  Effect.fetchExternal ::
    (if dryRun then [] else
      Effect.snapshot ::
        (match build_jsonl_lines w.externos w.preMap with
         | none => []
         | some built =>
             Effect.stagedUpload ::
               (if w.stagedOk then
                 Effect.uploadFile ::
                   (if w.uploadOk then
                     Effect.runBulk ::
                       (if w.bulkSubmitOk then
                         Effect.pollBulk ::
                           (match wait_for_bulk w.polls with
                            | some (Except.ok _) =>
                                Effect.snapshot ::
                                  (let pub :=
                                    publish_to_online w.publishResp
                                      (w.postMap.map Prod.snd)
                                   pub.1.map Effect.publish ++
                                     (if pub.2 then [] else
                                       (delete_obsolete w.deleteResp w.preMap
                                           built.2).1.map Effect.deleteProduct))
                            | _ => [])
                        else [])
                    else [])
                else [])))

lemma parseFloat_normLocale_empty : parseFloat (normLocale "") = none := by rfl

lemma parseFloat_normLocale_zero : parseFloat (normLocale "0") = some 0 := by
  norm_num +decide [parseFloat, normLocale, digitsVal, splitDot]

/-- C1: for every product record whose PVD, CANON and MARGIN fields parse
after locale normalization (strip `'.'`, replace `','` with `'.'`), the
computed price equals
`floor(((PVD + CANON) * (1 + MARGIN/100)) * (1 + 21/100) * 100) / 100`,
i.e. the result is truncated (not rounded) to 2 decimal places; in
particular a pre-truncation value of `19.999` yields `19.99`. -/
theorem spec_C1 (p : ExternalProduct) (pvd canon margin : ℚ)
    (h1 : parseFloat (normLocale (p.PVD.getD "0")) = some pvd)
    (h2 : parseFloat (normLocale (p.CANON.getD "0")) = some canon)
    (h3 : parseFloat (normLocale (p.MARGIN.getD "0")) = some margin) :
    recordPrice p =
      some ((⌊(pvd + canon) * (1 + margin / 100) * (1 + 21 / 100) * 100⌋ : ℚ) / 100) ∧
    truncate2 (19999 / 1000) = 1999 / 100 := by
  constructor
  · rw [recordPrice, h1, h2, h3]
    simp only [bind, Option.bind, pure]
    rw [truncate2, IVA]
  · rw [truncate2]
    norm_num

theorem spec_C1_witness :
    parseFloat (normLocale (((({ PVD := some "16,528" } : ExternalProduct)).PVD).getD "0")) =
        some (2066 / 125) ∧
    recordPrice { PVD := some "16,528" } =
      some ((⌊((2066 / 125 : ℚ) + 0) * (1 + 0 / 100) * (1 + 21 / 100) * 100⌋ : ℚ) / 100) ∧
    truncate2 (19999 / 1000) = 1999 / 100 := by
  refine ⟨?_, ?_, ?_⟩
  · norm_num +decide [parseFloat, normLocale, digitsVal, splitDot]
  · exact (spec_C1 { PVD := some "16,528" } (2066 / 125) 0 0
      (by norm_num +decide [parseFloat, normLocale, digitsVal, splitDot])
      (by exact parseFloat_normLocale_zero)
      (by exact parseFloat_normLocale_zero)).1
  · exact (spec_C1 { PVD := some "16,528" } (2066 / 125) 0 0
      (by norm_num +decide [parseFloat, normLocale, digitsVal, splitDot])
      (by exact parseFloat_normLocale_zero)
      (by exact parseFloat_normLocale_zero)).2

/-- C3: for every pre-batch snapshot map and every new-feed key set, the
set of keys selected for deletion equals the keys of the snapshot minus
the new-feed keys, hence it is disjoint from the new-feed keys; in
particular with an empty feed and existing `{"ean-1": "id1"}` the
obsolete-key set is `{"ean-1"}` and the upsert batch is empty. -/
theorem spec_C3 (existing : List (String × String)) (newHandles : List String) :
    (obsoleteKeys existing newHandles).toFinset =
      (existing.map Prod.fst).toFinset \ newHandles.toFinset ∧
    (obsoleteKeys existing newHandles).toFinset ∩ newHandles.toFinset = ∅ ∧
    build_jsonl_lines [] [("ean-1", "id1")] = some ([], []) ∧
    obsoleteKeys [("ean-1", "id1")] [] = ["ean-1"] := by
  have hset : (obsoleteKeys existing newHandles).toFinset =
      (existing.map Prod.fst).toFinset \ newHandles.toFinset := by
    ext x
    simp only [obsoleteKeys, List.mem_toFinset, List.mem_map, List.mem_filter,
      Finset.mem_sdiff, decide_eq_true_eq]
    constructor
    · rintro ⟨kv, ⟨hkv, hnot⟩, rfl⟩
      exact ⟨⟨kv, hkv, rfl⟩, hnot⟩
    · rintro ⟨⟨kv, hkv, rfl⟩, hnot⟩
      exact ⟨kv, ⟨hkv, hnot⟩, rfl⟩
  refine ⟨hset, ?_, by rfl, by rfl⟩
  rw [hset]
  exact Finset.sdiff_inter_self _ _

/-- C5 counterexample: the claim says a present-but-empty numeric field
defaults to `"0"` and the computation never raises, but on a record with
`PVD = ""` the source runs `float("")`, which raises `ValueError`, so the
price computation fails rather than producing a price. -/
theorem spec_C5_counterexample :
    recordPrice { PVD := some "" } = none ∧
    recordPrice { PVD := some "not a number" } = none := by
  constructor
  · rw [recordPrice]
    rw [show (({ PVD := some "" } : ExternalProduct)).PVD.getD "0" = "" from rfl,
      parseFloat_normLocale_empty]
    rfl
  · rfl

/-- C5 (amended): the price computation defaults a numeric field (PVD,
CANON, MARGIN) to `"0"` only when the field is absent, so an absent field
contributes zero; a field that is present but empty or malformed is not
defaulted — parsing it fails (Python raises `ValueError`), aborting the
computation. -/
theorem spec_C5 (p : ExternalProduct) :
    recordPrice { p with PVD := none } = recordPrice { p with PVD := some "0" } ∧
    recordPrice { p with CANON := none } = recordPrice { p with CANON := some "0" } ∧
    recordPrice { p with MARGIN := none } = recordPrice { p with MARGIN := some "0" } ∧
    recordPrice { PVD := none, CANON := none, MARGIN := none } = some 0 ∧
    recordPrice { p with PVD := some "" } = none := by
  refine ⟨by exact rfl, by exact rfl, by exact rfl, ?_, ?_⟩
  · norm_num +decide [recordPrice, parseFloat, normLocale, digitsVal, splitDot, truncate2,
      IVA, bind, Option.bind, pure]
  · rw [recordPrice]
    rw [show (({ p with PVD := some "" } : ExternalProduct)).PVD.getD "0" = "" from rfl,
      parseFloat_normLocale_empty]
    rfl

/-- C6 counterexample: the claim says the stable key is `"ean-"` plus the
catalog code with no further transformation, but the source strips
whitespace (`.strip()`): with catalog code `" 1 "` the key is `"ean-1"`,
not `"ean- 1 "`. -/
theorem spec_C6_counterexample :
    handleOf { EAN := some " 1 " } = "ean-1" ∧
    handleOf { EAN := some " 1 " } ≠ "ean-" ++ " 1 " := by
  constructor
  · rfl
  · decide

/-- C6 (amended): the stable key equals `"ean-"` concatenated with the
catalog code coerced to a string and stripped of leading and trailing
whitespace (no other validation or transformation); when the catalog code
is empty (or absent) the key is exactly `"ean-"`. -/
theorem spec_C6 (p : ExternalProduct) :
    handleOf p = "ean-" ++ pyStrip (p.EAN.getD "") ∧
    handleOf { p with EAN := some "" } = "ean-" ∧
    handleOf { p with EAN := none } = "ean-" := by
  exact ⟨rfl, rfl, rfl⟩

/-- C2: for every input feed, the batch built by the reconciler contains
at most one entry per stable key, keeping the first occurrence of each
duplicated key, and the length of the upsert batch equals the number of
distinct stable keys derived from the feed. -/
theorem spec_C2 (productos : List ExternalProduct) (existing : List (String × String))
    (lines : List Node) (handles : List String)
    (h : build_jsonl_lines productos existing = some (lines, handles)) :
    (lines.map Node.handle).Nodup ∧
    nodesOf existing (freshFirsts [] productos) = some lines ∧
    lines.length = ((productos.map handleOf).toFinset).card := by
  rw [build_jsonl_lines, build_go_eq] at h
  cases hm : nodesOf existing (freshFirsts [] productos) with
  | none => rw [hm] at h; exact absurd h (by simp)
  | some ls =>
      rw [hm] at h
      simp only [Option.map_some', Option.some.injEq, Prod.mk.injEq] at h
      obtain ⟨hl, _⟩ := h
      have hlines : nodesOf existing (freshFirsts [] productos) = some lines := by
        rw [hm, hl]
      have hmap : lines.map Node.handle = (freshFirsts [] productos).map handleOf :=
        nodesOf_handles existing _ lines hlines
      refine ⟨?_, by rw [hl], ?_⟩
      · rw [hmap]; exact freshFirsts_handles_nodup [] productos
      · have h1 : lines.length = ((freshFirsts [] productos).map handleOf).length := by
          rw [← hmap, List.length_map]
        rw [h1]
        have h2 := freshFirsts_handles_toFinset [] productos
        simp only [List.toFinset_nil, Finset.sdiff_empty] at h2
        rw [← h2]
        exact (List.toFinset_card_of_nodup (freshFirsts_handles_nodup [] productos)).symm

/-- A feed record with catalog code `"1"` and no other fields. -/
def pDup1 : ExternalProduct := { EAN := some "1" }

/-- A second record with the same catalog code (a feed duplicate). -/
def pDup2 : ExternalProduct := { EAN := some "1", NAME := some "B" }

/-- The node `build_jsonl_lines` builds for `pDup1` against an empty
snapshot. -/
def nodeDup1 : Node :=
  { id := none, handle := "ean-1", title := "", descriptionHtml := "",
    status := "ACTIVE", productType := "", tags := ["ImportadoAPI"], sku := "",
    barcode := "1", price := 0, stock := 0, files := none }

@[simp] lemma pyInt_zero : pyInt 0 = 0 := by norm_num [pyInt]

theorem spec_C2_witness :
    build_jsonl_lines [pDup1, pDup2] [] = some ([nodeDup1], ["ean-1"]) ∧
    (([nodeDup1].map Node.handle).Nodup ∧
      nodesOf [] (freshFirsts [] [pDup1, pDup2]) = some [nodeDup1] ∧
      [nodeDup1].length = (([pDup1, pDup2].map handleOf).toFinset).card) := by
  have hb : build_jsonl_lines [pDup1, pDup2] [] = some ([nodeDup1], ["ean-1"]) := by
    norm_num +decide [build_jsonl_lines, build_go, mkNode, handleOf, pyStrip, recordPrice,
      parseFloat, normLocale, splitDot, digitsVal, truncate2, IVA, pyInt, bind, Option.bind,
      pure, pDup1, pDup2, nodeDup1, List.lookup]
  exact ⟨hb, spec_C2 [pDup1, pDup2] [] [nodeDup1] ["ean-1"] hb⟩

lemma freshFirsts_sublist (seen : List String) (ps : List ExternalProduct) :
    (freshFirsts seen ps).Sublist ps := by
  induction ps generalizing seen with
  | nil => simp [freshFirsts]
  | cons q rest ih =>
      by_cases hq : handleOf q ∈ seen
      · rw [freshFirsts, if_pos hq]; exact (ih seen).cons q
      · rw [freshFirsts, if_neg hq]; exact (ih (handleOf q :: seen)).cons₂ q

lemma lookup_isSome_iff (l : List (String × String)) (k : String) :
    ((l.lookup k).isSome = true) ↔ k ∈ l.map Prod.fst := by
  induction l with
  | nil => simp [List.lookup]
  | cons kv rest ih =>
      obtain ⟨a, b⟩ := kv
      by_cases hk : k = a
      · subst hk; simp [List.lookup]
      · have hne : (k == a) = false := beq_eq_false_iff_ne.mpr hk
        simp [List.lookup, hne, ih, hk]

lemma nodesOf_id (existing : List (String × String)) :
    ∀ (ps : List ExternalProduct) (lines : List Node),
      nodesOf existing ps = some lines →
      ∀ n ∈ lines, n.id = existing.lookup n.handle
  | [], lines, h => by
      simp only [nodesOf, Option.some.injEq] at h
      simp [← h]
  | p :: ps, lines, h => by
      rw [nodesOf] at h
      cases hn : mkNode existing p with
      | none => rw [hn] at h; exact absurd h (by simp [bind, Option.bind])
      | some n =>
          cases hm : nodesOf existing ps with
          | none => rw [hn, hm] at h; exact absurd h (by simp [bind, Option.bind])
          | some ls =>
              rw [hn, hm] at h
              simp only [bind, Option.bind, pure, Option.some.injEq] at h
              subst h
              intro m hm'
              rcases List.mem_cons.mp hm' with rfl | hmem
              · rw [mkNode_id existing p m hn, mkNode_handle existing p m hn]
              · exact nodesOf_id existing ps ls hm m hmem

/-- C4: for every deduplicated product in the feed, the corresponding
upsert entry carries the platform identifier from the existing-records
map if and only if its stable key is present in that map (update-in-place
vs create-new), and entries appear in the upsert batch in the same
relative order as in the input feed. -/
theorem spec_C4 (productos : List ExternalProduct) (existing : List (String × String))
    (lines : List Node) (handles : List String)
    (h : build_jsonl_lines productos existing = some (lines, handles)) :
    (∀ n ∈ lines, n.id = existing.lookup n.handle) ∧
    (∀ n ∈ lines, ((n.id).isSome = true ↔ n.handle ∈ existing.map Prod.fst)) ∧
    (lines.map Node.handle).Sublist (productos.map handleOf) := by
  rw [build_jsonl_lines, build_go_eq] at h
  cases hm : nodesOf existing (freshFirsts [] productos) with
  | none => rw [hm] at h; exact absurd h (by simp)
  | some ls =>
      rw [hm] at h
      simp only [Option.map_some', Option.some.injEq, Prod.mk.injEq] at h
      obtain ⟨hl, _⟩ := h
      have hlines : nodesOf existing (freshFirsts [] productos) = some lines := by
        rw [hm, hl]
      refine ⟨nodesOf_id existing _ lines hlines, ?_, ?_⟩
      · intro n hn
        rw [nodesOf_id existing _ lines hlines n hn]
        exact lookup_isSome_iff existing n.handle
      · rw [nodesOf_handles existing _ lines hlines]
        exact (freshFirsts_sublist [] productos).map handleOf

/-- A one-entry pre-batch snapshot: key `"ean-1"` owned by id `"id1"`. -/
def exMap1 : List (String × String) := [("ean-1", "id1")]

/-- The node built for `pDup1` against `exMap1`: same as `nodeDup1` but
carrying the matched platform identifier. -/
def nodeUpd : Node :=
  { id := some "id1", handle := "ean-1", title := "", descriptionHtml := "",
    status := "ACTIVE", productType := "", tags := ["ImportadoAPI"], sku := "",
    barcode := "1", price := 0, stock := 0, files := none }

theorem spec_C4_witness :
    build_jsonl_lines [pDup1] exMap1 = some ([nodeUpd], ["ean-1"]) ∧
    ((∀ n ∈ [nodeUpd], n.id = exMap1.lookup n.handle) ∧
      (∀ n ∈ [nodeUpd], ((n.id).isSome = true ↔ n.handle ∈ exMap1.map Prod.fst)) ∧
      ([nodeUpd].map Node.handle).Sublist ([pDup1].map handleOf)) := by
  have hb : build_jsonl_lines [pDup1] exMap1 = some ([nodeUpd], ["ean-1"]) := by
    norm_num +decide [build_jsonl_lines, build_go, mkNode, handleOf, pyStrip, recordPrice,
      parseFloat, normLocale, splitDot, digitsVal, truncate2, IVA, pyInt, bind, Option.bind,
      pure, pDup1, nodeUpd, exMap1, List.lookup]
  exact ⟨hb, spec_C4 [pDup1] exMap1 [nodeUpd] ["ean-1"] hb⟩

lemma wait_for_bulk_append (tail : List String) :
    ∀ (l : List String), (∀ t ∈ l, isTerminal t = false) →
      wait_for_bulk (l ++ tail) = wait_for_bulk tail
  | [], _ => rfl
  | t :: ts, hl => by
      rw [List.cons_append, wait_for_bulk,
        if_neg (by simp [hl t (List.mem_cons_self t ts)])]
      exact wait_for_bulk_append tail ts (fun u hu => hl u (List.mem_cons_of_mem t hu))

/-- C7: for every run, when the bulk job reaches a terminal state other
than completed (failed or canceled) the run aborts with a fatal error and
performs no retry, and when it reaches completed the wait returns
normally; the outcome is decided by the first terminal status polled and
does not depend on any later polls. -/
theorem spec_C7 (pre : List String) (s : String) (rest : List String)
    (hpre : ∀ t ∈ pre, isTerminal t = false) (hs : isTerminal s = true) :
    wait_for_bulk (pre ++ s :: rest) =
      some (if s ≠ "COMPLETED" then Except.error ("Bulk ended with status " ++ s)
            else Except.ok ()) ∧
    wait_for_bulk (pre ++ s :: rest) = wait_for_bulk (pre ++ [s]) := by
  have hstep : ∀ (l : List String),
      wait_for_bulk (s :: l) =
        some (if s ≠ "COMPLETED" then Except.error ("Bulk ended with status " ++ s)
              else Except.ok ()) := by
    intro l
    rw [wait_for_bulk, if_pos hs]
  have h1 := (wait_for_bulk_append (s :: rest) pre hpre).trans (hstep rest)
  have h2 := (wait_for_bulk_append [s] pre hpre).trans (hstep [])
  exact ⟨h1, h1.trans h2.symm⟩

theorem spec_C7_witness :
    (∀ t ∈ ["RUNNING"], isTerminal t = false) ∧ isTerminal "FAILED" = true ∧
    wait_for_bulk (["RUNNING"] ++ "FAILED" :: ["COMPLETED"]) =
      some (if "FAILED" ≠ "COMPLETED" then
              Except.error ("Bulk ended with status " ++ "FAILED")
            else Except.ok ()) ∧
    wait_for_bulk (["RUNNING"] ++ "FAILED" :: ["COMPLETED"]) =
      wait_for_bulk (["RUNNING"] ++ ["FAILED"]) :=
  ⟨by decide, by decide,
    (spec_C7 ["RUNNING"] "FAILED" ["COMPLETED"] (by decide) (by decide)).1,
    (spec_C7 ["RUNNING"] "FAILED" ["COMPLETED"] (by decide) (by decide)).2⟩

/-- A responder whose call on record `"a"` fails at the transport level. -/
def failOnA : String → CallResult := fun pid =>
  if pid = "a" then CallResult.transportErr else CallResult.ok []

/-- C8 counterexample: the claim says a failure on any single record is
logged and does not abort, with every remaining record still attempted;
but on a transport-level failure the source calls
`resp.raise_for_status()`, which raises: with records `["a", "b"]` and a
transport failure on `"a"`, only `"a"` is attempted and the run aborts,
so `"b"` never gets its call. -/
theorem spec_C8_counterexample :
    (publish_to_online failOnA ["a", "b"]).1 = ["a"] ∧
    (publish_to_online failOnA ["a", "b"]).1 ≠ ["a", "b"] ∧
    (publish_to_online failOnA ["a", "b"]).2 = true := by
  decide

lemma attemptAll_ok (f : String → CallResult) :
    ∀ (ids : List String), (∀ pid ∈ ids, f pid ≠ CallResult.transportErr) →
      attemptAll f ids = (ids, false)
  | [], _ => rfl
  | pid :: rest, h => by
      have hrec := attemptAll_ok f rest (fun q hq => h q (List.mem_cons_of_mem pid hq))
      cases hf : f pid with
      | transportErr => exact absurd hf (h pid (List.mem_cons_self pid rest))
      | ok errs => simp [attemptAll, hf, hrec]

/-- C8 (amended): during the publish and delete phases a per-record
validation failure (a non-empty `userErrors` list) is logged and does not
abort the run — every remaining record still gets its own call attempted;
a transport-level (HTTP) failure, however, raises and aborts the
run. -/
theorem spec_C8 (f g : String → CallResult) (ids : List String)
    (existing : List (String × String)) (newHandles : List String)
    (hf : ∀ pid ∈ ids, f pid ≠ CallResult.transportErr)
    (hg : ∀ pid ∈ obsolete existing newHandles, g pid ≠ CallResult.transportErr) :
    publish_to_online f ids = (ids, false) ∧
    delete_obsolete g existing newHandles = (obsolete existing newHandles, false) :=
  ⟨attemptAll_ok f ids hf, attemptAll_ok g _ hg⟩

/-- A responder that always reports validation errors (and no transport
failure). -/
def okWithErrs : String → CallResult := fun _ => CallResult.ok ["boom"]

/-- A responder that always succeeds cleanly. -/
def okClean : String → CallResult := fun _ => CallResult.ok []

/-- A one-entry pre-batch snapshot used by the orchestrator samples. -/
def preMapSample : List (String × String) := [("ean-old", "idO")]

theorem spec_C8_witness :
    (∀ pid ∈ ["x", "y"], okWithErrs pid ≠ CallResult.transportErr) ∧
    (∀ pid ∈ obsolete preMapSample [], okClean pid ≠ CallResult.transportErr) ∧
    (publish_to_online okWithErrs ["x", "y"] = (["x", "y"], false) ∧
      delete_obsolete okClean preMapSample [] = (obsolete preMapSample [], false)) :=
  ⟨by decide, by decide,
    spec_C8 okWithErrs okClean ["x", "y"] preMapSample [] (by decide) (by decide)⟩

/-- Whether an effect is a publish call. -/
def isPub : Effect → Bool
  | Effect.publish _ => true
  | _ => false

/-- Whether an effect is a delete call. -/
def isDel : Effect → Bool
  | Effect.deleteProduct _ => true
  | _ => false

/-- Whether an effect is a publish or a delete call. -/
def isPubOrDel (e : Effect) : Bool := isPub e || isDel e

lemma attemptAll_complete (f : String → CallResult) :
    ∀ (ids : List String), (attemptAll f ids).2 = false → (attemptAll f ids).1 = ids
  | [], _ => rfl
  | pid :: rest, h => by
      cases hf : f pid with
      | transportErr =>
          rw [attemptAll, hf] at h
          exact absurd h (by simp)
      | ok errs =>
          rw [attemptAll, hf] at h ⊢
          exact congrArg (List.cons pid) (attemptAll_complete f rest h)

lemma attemptAll_mem (f : String → CallResult) :
    ∀ (ids : List String), ∀ x ∈ (attemptAll f ids).1, x ∈ ids
  | [], x, hx => by rw [attemptAll] at hx; exact absurd hx (by simp)
  | pid :: rest, x, hx => by
      cases hf : f pid with
      | transportErr =>
          rw [attemptAll, hf] at hx
          replace hx : x ∈ [pid] := hx
          simp only [List.mem_singleton] at hx
          simp [hx]
      | ok errs =>
          rw [attemptAll, hf] at hx
          replace hx : x ∈ pid :: (attemptAll f rest).1 := hx
          rcases List.mem_cons.mp hx with rfl | hx'
          · exact List.mem_cons_self _ _
          · exact List.mem_cons_of_mem _ (attemptAll_mem f rest x hx')

lemma obsolete_subset (existing : List (String × String)) (newHandles : List String) :
    ∀ x ∈ obsolete existing newHandles, x ∈ existing.map Prod.snd := by
  intro x hx
  rcases List.mem_map.mp hx with ⟨kv, hkv, rfl⟩
  exact List.mem_map.mpr ⟨kv, (List.mem_filter.mp hkv).1, rfl⟩

lemma filter_isPubOrDel_publishes (l : List String) :
    (l.map Effect.publish).filter isPubOrDel = l.map Effect.publish := by
  induction l with
  | nil => rfl
  | cons a t ih => simp [isPubOrDel, isPub, ih]

lemma filter_isPubOrDel_deletes (l : List String) :
    (l.map Effect.deleteProduct).filter isPubOrDel = l.map Effect.deleteProduct := by
  induction l with
  | nil => rfl
  | cons a t ih => simp [isPubOrDel, isPub, isDel, ih]

lemma filter_isPub_publishes (l : List String) :
    (l.map Effect.publish).filter isPub = l.map Effect.publish := by
  induction l with
  | nil => rfl
  | cons a t ih => simp [isPub, ih]

lemma filter_isPub_deletes (l : List String) :
    (l.map Effect.deleteProduct).filter isPub = [] := by
  induction l with
  | nil => rfl
  | cons a t ih => simp [isPub, ih]

lemma filter_isDel_publishes (l : List String) :
    (l.map Effect.publish).filter isDel = [] := by
  induction l with
  | nil => rfl
  | cons a t ih => simp [isDel, ih]

lemma filter_isDel_deletes (l : List String) :
    (l.map Effect.deleteProduct).filter isDel = l.map Effect.deleteProduct := by
  induction l with
  | nil => rfl
  | cons a t ih => simp [isDel, ih]

/-- Every non-dry trace of `main` splits into a prefix without publish or
delete effects, then all publish calls, then all delete calls; and when
the post-batch snapshot contains every pre-batch record, every deleted id
also occurs among the published ids. -/
lemma mainTrace_shape (w : World)
    (hpost : ∀ pid ∈ w.preMap.map Prod.snd, pid ∈ w.postMap.map Prod.snd) :
    ∃ (pre : List Effect) (pubs dels : List String),
      mainTrace w false =
        pre ++ (pubs.map Effect.publish ++ dels.map Effect.deleteProduct) ∧
      (∀ e ∈ pre, isPub e = false ∧ isDel e = false) ∧
      (∀ x ∈ dels, x ∈ pubs) := by
  cases hb : build_jsonl_lines w.externos w.preMap with
  | none =>
      exact ⟨[Effect.fetchExternal, Effect.snapshot], [], [],
        by simp [mainTrace, hb], by decide, by simp⟩
  | some built =>
      cases hst : w.stagedOk with
      | false =>
          exact ⟨[Effect.fetchExternal, Effect.snapshot, Effect.stagedUpload], [], [],
            by simp [mainTrace, hb, hst], by decide, by simp⟩
      | true =>
      cases hup : w.uploadOk with
      | false =>
          exact ⟨[Effect.fetchExternal, Effect.snapshot, Effect.stagedUpload,
            Effect.uploadFile], [], [],
            by simp [mainTrace, hb, hst, hup], by decide, by simp⟩
      | true =>
      cases hbs : w.bulkSubmitOk with
      | false =>
          exact ⟨[Effect.fetchExternal, Effect.snapshot, Effect.stagedUpload,
            Effect.uploadFile, Effect.runBulk], [], [],
            by simp [mainTrace, hb, hst, hup, hbs], by decide, by simp⟩
      | true =>
      cases hw : wait_for_bulk w.polls with
      | none =>
          exact ⟨[Effect.fetchExternal, Effect.snapshot, Effect.stagedUpload,
            Effect.uploadFile, Effect.runBulk, Effect.pollBulk], [], [],
            by simp [mainTrace, hb, hst, hup, hbs, hw], by decide, by simp⟩
      | some r =>
      cases r with
      | error e =>
          exact ⟨[Effect.fetchExternal, Effect.snapshot, Effect.stagedUpload,
            Effect.uploadFile, Effect.runBulk, Effect.pollBulk], [], [],
            by simp [mainTrace, hb, hst, hup, hbs, hw], by decide, by simp⟩
      | ok u =>
      cases hp2 : (publish_to_online w.publishResp (w.postMap.map Prod.snd)).2 with
      | true =>
          exact ⟨[Effect.fetchExternal, Effect.snapshot, Effect.stagedUpload,
            Effect.uploadFile, Effect.runBulk, Effect.pollBulk, Effect.snapshot],
            (publish_to_online w.publishResp (w.postMap.map Prod.snd)).1, [],
            by simp [mainTrace, hb, hst, hup, hbs, hw, hp2], by decide, by simp⟩
      | false =>
          have hcomp : (publish_to_online w.publishResp (w.postMap.map Prod.snd)).1 =
              w.postMap.map Prod.snd :=
            attemptAll_complete w.publishResp (w.postMap.map Prod.snd) hp2
          refine ⟨[Effect.fetchExternal, Effect.snapshot, Effect.stagedUpload,
            Effect.uploadFile, Effect.runBulk, Effect.pollBulk, Effect.snapshot],
            w.postMap.map Prod.snd,
            (delete_obsolete w.deleteResp w.preMap built.2).1, ?_, by decide, ?_⟩
          · simp [mainTrace, hb, hst, hup, hbs, hw, hp2, hcomp]
          · intro x hx
            exact hpost x (obsolete_subset w.preMap built.2 x
              (attemptAll_mem w.deleteResp (obsolete w.preMap built.2) x hx))

/-- C10: in every non-dry run the publish phase operates on the
post-batch snapshot, which still contains the obsolete records, so every
product later deleted as obsolete first receives a publish call in the
same run, and among the publish and delete effects of the trace all
publish calls precede all delete calls. -/
theorem spec_C10 (w : World)
    (hpost : ∀ pid ∈ w.preMap.map Prod.snd, pid ∈ w.postMap.map Prod.snd) :
    (∀ pid, Effect.deleteProduct pid ∈ mainTrace w false →
        Effect.publish pid ∈ mainTrace w false) ∧
    (mainTrace w false).filter isPubOrDel =
      (mainTrace w false).filter isPub ++ (mainTrace w false).filter isDel := by
  obtain ⟨pre, pubs, dels, htr, hpre, hsub⟩ := mainTrace_shape w hpost
  constructor
  · intro pid hdel
    rw [htr] at hdel ⊢
    have hpid : pid ∈ dels := by
      rcases List.mem_append.mp hdel with h1 | h2
      · exact absurd (hpre _ h1).2 (by simp [isDel])
      · rcases List.mem_append.mp h2 with h2a | h2b
        · rcases List.mem_map.mp h2a with ⟨q, _, hq⟩
          exact absurd hq (by simp)
        · rcases List.mem_map.mp h2b with ⟨q, hq', hq⟩
          have : q = pid := by injection hq
          exact this ▸ hq'
    exact List.mem_append.mpr (Or.inr (List.mem_append.mpr
      (Or.inl (List.mem_map.mpr ⟨pid, hsub pid hpid, rfl⟩))))
  · have hpre1 : pre.filter isPubOrDel = [] := by
      rw [List.filter_eq_nil_iff]
      intro a ha
      simp [isPubOrDel, (hpre a ha).1, (hpre a ha).2]
    have hpre2 : pre.filter isPub = [] := by
      rw [List.filter_eq_nil_iff]
      intro a ha
      simp [(hpre a ha).1]
    have hpre3 : pre.filter isDel = [] := by
      rw [List.filter_eq_nil_iff]
      intro a ha
      simp [(hpre a ha).2]
    rw [htr]
    simp only [List.filter_append, hpre1, hpre2, hpre3, filter_isPubOrDel_publishes,
      filter_isPubOrDel_deletes, filter_isPub_publishes, filter_isPub_deletes,
      filter_isDel_publishes, filter_isDel_deletes, List.nil_append, List.append_nil]

/-- A sample world: one feed record, one pre-batch record that will turn
obsolete, a post-batch snapshot containing both, a clean bulk run. -/
def wSample : World :=
  { externos := [pDup1], preMap := preMapSample, stagedOk := true, uploadOk := true,
    bulkSubmitOk := true, polls := ["RUNNING", "COMPLETED"],
    postMap := [("ean-old", "idO"), ("ean-1", "idN")],
    publishResp := okClean, deleteResp := okClean }

theorem spec_C10_witness :
    (∀ pid ∈ wSample.preMap.map Prod.snd, pid ∈ wSample.postMap.map Prod.snd) ∧
    ((∀ pid, Effect.deleteProduct pid ∈ mainTrace wSample false →
        Effect.publish pid ∈ mainTrace wSample false) ∧
      (mainTrace wSample false).filter isPubOrDel =
        (mainTrace wSample false).filter isPub ++
          (mainTrace wSample false).filter isDel) :=
  ⟨by decide, spec_C10 wSample (by decide)⟩

/-- C9: in dry-run mode the orchestrator performs only the external fetch
and count step and then stops: no snapshot query, no batch submission, no
publish and no delete call appears in the run's trace. -/
theorem spec_C9 (w : World) : mainTrace w true = [Effect.fetchExternal] := by
  rfl

end SyncProducts
